import Mathlib

/-!
Verification of the upload-validate-encode-submit pipeline of the
InterviewCoach repository.  Strings are embedded as `List Char`, bytes as
`Nat` lists with an explicit `< 256` bound, and the asynchronous remote
call as a pure function of an explicit remote outcome.
-/

set_option maxHeartbeats 1000000

/-- Upload status enumeration from `types.ts` (`UploadStatus`). -/
inductive UploadStatus where
  | IDLE
  | UPLOADING
  | READY
  | ERROR
  deriving DecidableEq, Repr

/-- A selected file as the browser hands it to the pipeline: its declared
MIME type (`file.type`), its declared byte size (`file.size`) and its raw
content bytes. -/
structure JSFile where
  type : List Char
  size : Nat
  bytes : List Nat
  deriving DecidableEq, Repr

/-- The size ceiling constant `MAX_SIZE_MB = 50` from `VideoUploader`. -/
def MAX_SIZE_MB : Nat := 50

/-- The type-mismatch rejection message set by `validateFile`. -/
def typeErrorMsg : List Char :=
  "Please upload a valid video file (MP4, WebM, MOV).".toList

/-- The size-limit rejection message set by `validateFile`; the source
builds it from the `MAX_SIZE_MB` constant with a template literal. -/
def sizeErrorMsg : List Char :=
  "File size exceeds the ".toList ++ (toString MAX_SIZE_MB).toList
    ++ "MB limit for this demo.".toList

/-- `validateFile` from `VideoUploader`.  The second argument is the
component error-message slot (the `error` state) before the call; the
function returns the boolean verdict together with the slot after the
call.  The source first runs `setError(null)`, then checks
`file.type.startsWith('video/')`, then
`file.size > MAX_SIZE_MB * 1024 * 1024`, writing the corresponding
message on each rejection. -/
def validateFile (file : JSFile) (errSlot : Option (List Char)) :
    Bool × Option (List Char) :=
  let _ := errSlot
  if ¬ ("video/".toList.isPrefixOf file.type) then
    (false, some typeErrorMsg)
  else if file.size > MAX_SIZE_MB * 1024 * 1024 then
    (false, some sizeErrorMsg)
  else
    (true, none)

/-- The character of the standard base64 alphabet at position `n < 64`;
arguments `64` and above are clamped onto the final character. -/
def b64Char (n : Nat) : Char :=
  if n < 26 then Char.ofNat (65 + n)
  else if n < 52 then Char.ofNat (97 + (n - 26))
  else if n < 62 then Char.ofNat (48 + (n - 52))
  else if n = 62 then '+'
  else '/'

/-- The position of a character in the standard base64 alphabet;
characters outside the alphabet are clamped onto position `63`. -/
def b64Index (c : Char) : Nat :=
  if 65 ≤ c.toNat ∧ c.toNat ≤ 90 then c.toNat - 65
  else if 97 ≤ c.toNat ∧ c.toNat ≤ 122 then c.toNat - 97 + 26
  else if 48 ≤ c.toNat ∧ c.toNat ≤ 57 then c.toNat - 48 + 52
  else if c = '+' then 62
  else 63

/-- Standard base64 of a byte list (with `=` padding), modelling the
encoding that the platform `FileReader.readAsDataURL` applies to the
file content. -/
def base64Encode : List Nat → List Char
  | [] => []
  | [b1] =>
      [b64Char (b1 / 4), b64Char (b1 % 4 * 16), '=', '=']
  | [b1, b2] =>
      [b64Char (b1 / 4), b64Char (b1 % 4 * 16 + b2 / 16),
       b64Char (b2 % 16 * 4), '=']
  | b1 :: b2 :: b3 :: rest =>
      b64Char (b1 / 4) :: b64Char (b1 % 4 * 16 + b2 / 16) ::
      b64Char (b2 % 16 * 4 + b3 / 64) :: b64Char (b3 % 64) ::
      base64Encode rest

/-- Standard base64 decoding of a padded character list, used to state
the round-trip law for the encoder. -/
def base64Decode : List Char → List Nat
  | c1 :: c2 :: c3 :: c4 :: rest =>
      if c3 = '=' then
        [b64Index c1 * 4 + b64Index c2 / 16]
      else if c4 = '=' then
        [b64Index c1 * 4 + b64Index c2 / 16,
         b64Index c2 % 16 * 16 + b64Index c3 / 4]
      else
        (b64Index c1 * 4 + b64Index c2 / 16) ::
        (b64Index c2 % 16 * 16 + b64Index c3 / 4) ::
        (b64Index c3 % 4 * 64 + b64Index c4) ::
        base64Decode rest
  | _ => []

/-- JavaScript `String.prototype.split(',')` on a character list: the
maximal comma-free segments, in order. -/
def splitComma : List Char → List (List Char)
  | [] => [[]]
  | c :: rest =>
      if c = ',' then [] :: splitComma rest
      else
        match splitComma rest with
        | [] => [[c]]
        | g :: gs => (c :: g) :: gs

/-- Modelled from the spec: the platform `FileReader.readAsDataURL`
result, a string of the form `data:<mime>;base64,<payload>` whose
payload is the base64 of the file bytes.  The reader itself is a
platform primitive, not repository code. -/
def readAsDataURL (mime : List Char) (bytes : List Nat) : List Char :=
  "data:".toList ++ mime ++ ";base64,".toList ++ base64Encode bytes

/-- The `{ mimeType, data }` pair that `fileToGenerativePart` resolves
with. -/
structure GenerativePart where
  mimeType : List Char
  data : List Char
  deriving DecidableEq, Repr

/-- `fileToGenerativePart` from `geminiService.ts`: reads the file as a
data URL, strips the data-URL header with `split(',')[1]`, and returns
the payload together with `file.type`. -/
def fileToGenerativePart (file : JSFile) : GenerativePart :=
  { mimeType := file.type,
    data := (splitComma (readAsDataURL file.type file.bytes)).getD 1 [] }

/-- Decoding a data URL the standard way: strip everything up to the
first comma and base64-decode the remainder.  Used to state the
round-trip law (re-prefixing the encoder output and decoding). -/
def dataURLDecode (s : List Char) : List Nat :=
  base64Decode ((splitComma s).getD 1 [])

/-- A JSON value, the possible result of the platform `JSON.parse`. -/
inductive Json where
  | null
  | bool (b : Bool)
  | num (n : Int)
  | str (s : List Char)
  | arr (xs : List Json)
  | obj (fields : List (List Char × Json))

/-- Field lookup on a parsed JSON value, modelling JavaScript property
access on the object that `JSON.parse` returns. -/
def Json.getField : Json → List Char → Option Json
  | .obj fields, k => List.lookup k fields
  | _, _ => none

/-- The message of the error thrown by `analyzeInterview` when the API
key is missing. -/
def configMissingMsg : List Char :=
  "API Key is missing. Please set it in the environment.".toList

/-- The message of the single generic error thrown by the `catch` block
of `analyzeInterview`. -/
def genericFailureMsg : List Char :=
  ("Failed to analyze the video. " ++
   "The file might be too large or the format unsupported.").toList

/-- The message thrown inside the `try` block when `response.text` is
falsy. -/
def noTextMsg : List Char :=
  "No response text received from Gemini.".toList

/-- JavaScript truthiness test on `process.env.API_KEY`
(string or undefined): `!apiKey` holds exactly when the variable is
unset or the empty string. -/
def jsFalsy : Option (List Char) → Bool
  | none => true
  | some s => s.isEmpty

/-- The default role description substituted for an empty job
description in the prompt (`jobDescription || '...'`). -/
def defaultRole : List Char :=
  "General Software Engineering Role".toList

/-- JavaScript `jobDescription || 'General Software Engineering Role'`:
the empty string is falsy, every other string is passed through. -/
def effectiveRole (jobDescription : List Char) : List Char :=
  if jobDescription = [] then defaultRole else jobDescription

/-- The prompt text of `analyzeInterview` before the interpolated role
description. -/
def promptHead : List Char :=
  ("\n    You are an expert Interview Coach and Technical Recruiter.\n" ++
   "    Review the uploaded video which contains an interview practice session.\n" ++
   "    The video may include audio, webcam footage, and screen sharing.\n    \n" ++
   "    The user is applying for a role described as:\n    \"").toList

/-- The prompt text of `analyzeInterview` after the interpolated role
description. -/
def promptTail : List Char :=
  ("\"\n\n    Please analyze the video for:\n" ++
   "    1. Verbal Communication: Clarity, pace, tone, filler words.\n" ++
   "    2. Non-Verbal Communication: Eye contact, body language, confidence (if camera is on).\n" ++
   "    3. Content Quality: Relevance to the job description, technical depth, structure of answers.\n" ++
   "    4. Screen Share / Visuals: If they are sharing their screen, assess the clarity of their walkthrough and code/presentation.\n" ++
   "\n    Provide a structured JSON response evaluating these areas.\n  ").toList

/-- The request instruction built by `analyzeInterview`: the template
literal with the role description interpolated. -/
def buildPrompt (jobDescription : List Char) : List Char :=
  promptHead ++ effectiveRole jobDescription ++ promptTail

/-- The observable outcome of the single `ai.models.generateContent`
call, as seen by the code after the platform resolves the promise and
(on a body) runs `JSON.parse`.  `netFail` is a rejected call, `noText`
a response with falsy `response.text`, `badJson` a body on which
`JSON.parse` throws, and `goodJson j` a body that parses to `j`. -/
inductive RemoteOutcome where
  | netFail
  | noText
  | badJson
  | goodJson (j : Json)

/-- `analyzeInterview` from `geminiService.ts` as a function of the
configured credential, the inputs, and the remote outcome.  It returns
the settled result of the promise — the thrown error message or the
value that `JSON.parse(response.text) as InterviewAnalysis` returns
unchecked — paired with the number of outbound network calls made. -/
def analyzeInterview (apiKey : Option (List Char)) (videoFile : JSFile)
    (jobDescription : List Char) (outcome : RemoteOutcome) :
    Except (List Char) Json × Nat :=
  if jsFalsy apiKey then
    (.error configMissingMsg, 0)
  else
    let _ := fileToGenerativePart videoFile
    let _ := buildPrompt jobDescription
    match outcome with
    | .netFail => (.error genericFailureMsg, 1)
    | .noText => (.error genericFailureMsg, 1)
    | .badJson => (.error genericFailureMsg, 1)
    | .goodJson j => (.ok j, 1)

/-- Score bound `0 ≤ n ≤ 100` from the data-model invariant. -/
def scoreOK (n : Int) : Bool :=
  0 ≤ n && n ≤ 100

/-- Membership in the closed status enumeration of
`AssessmentCategory`. -/
def statusOK (s : List Char) : Bool :=
  s = "excellent".toList || s = "good".toList ||
    s = "needs_improvement".toList

/-- Modelled from the spec: the report-shape invariant on a single
category entry — score in bounds and status in the enumeration. -/
def categoryOK (j : Json) : Bool :=
  match j.getField "score".toList, j.getField "status".toList with
  | some (.num n), some (.str st) => scoreOK n && statusOK st
  | _, _ => false

/-- Modelled from the spec: the report-shape invariant on a parsed
report — overall score in bounds, a non-empty category list, and every
category valid.  The client never runs this check; it exists to state
the conformance gap. -/
def reportOK (j : Json) : Bool :=
  match j.getField "overallScore".toList, j.getField "categories".toList with
  | some (.num n), some (.arr cats) =>
      scoreOK n && !cats.isEmpty && cats.all categoryOK
  | _, _ => false

/-- The React state of the `App` component: the five `useState` slots. -/
structure AppState where
  videoFile : Option JSFile
  jobDescription : List Char
  status : UploadStatus
  analysisResult : Option Json
  errorMessage : Option (List Char)

/-- The initial `App` state: no file, empty context, `IDLE`, no result,
no error message. -/
def initialAppState : AppState :=
  { videoFile := none, jobDescription := [], status := .IDLE,
    analysisResult := none, errorMessage := none }

/-- The transitions of the `App` component: file selection and context
editing, the start of `handleAnalyze` (guarded on a selected file, it
sets `UPLOADING` and clears the error message), its success and failure
continuations, and `handleReset`. -/
inductive AppStep : AppState → AppState → Prop where
  | selectFile (s : AppState) (f : Option JSFile) :
      AppStep s { s with videoFile := f }
  | setJob (s : AppState) (jd : List Char) :
      AppStep s { s with jobDescription := jd }
  | submit (s : AppState) (h : s.videoFile ≠ none) :
      AppStep s { s with status := .UPLOADING, errorMessage := none }
  | success (s : AppState) (j : Json) (h : s.status = .UPLOADING) :
      AppStep s { s with analysisResult := some j, status := .READY }
  | failure (s : AppState) (msg : List Char) (h : s.status = .UPLOADING) :
      AppStep s { s with errorMessage := some msg, status := .ERROR }
  | reset (s : AppState) :
      AppStep s initialAppState

/-- The `App` states reachable from the initial state through the
component's transitions. -/
inductive Reachable : AppState → Prop where
  | init : Reachable initialAppState
  | step {s t : AppState} : Reachable s → AppStep s t → Reachable t

/-- A small well-typed video file used as a concrete pipeline input. -/
def sampleFile : JSFile := ⟨"video/mp4".toList, 4, [77, 97, 110, 255]⟩

/-- The category entry of the worked example response of the spec. -/
def sampleCategory : Json :=
  .obj [("name".toList, .str "Verbal Communication".toList),
        ("score".toList, .num 80),
        ("feedback".toList, .str "Good pace".toList),
        ("status".toList, .str "good".toList)]

/-- The worked example response of the spec: overallScore 82 and one
category named Verbal Communication. -/
def sampleResponse : Json :=
  .obj [("overallScore".toList, .num 82),
        ("summary".toList, .str "Solid".toList),
        ("strengths".toList, .arr [.str "Clear speech".toList]),
        ("weaknesses".toList, .arr [.str "Rambling".toList]),
        ("actionableTips".toList, .arr [.str "Be concise".toList]),
        ("categories".toList, .arr [sampleCategory])]

/-- A schema-shaped but invariant-violating response: overallScore 150
(outside 0..100) and a status string outside the enumeration. -/
def outOfRangeResponse : Json :=
  .obj [("overallScore".toList, .num 150),
        ("summary".toList, .str "Solid".toList),
        ("strengths".toList, .arr [.str "Clear speech".toList]),
        ("weaknesses".toList, .arr [.str "Rambling".toList]),
        ("actionableTips".toList, .arr [.str "Be concise".toList]),
        ("categories".toList, .arr
          [.obj [("name".toList, .str "Verbal Communication".toList),
                 ("score".toList, .num 80),
                 ("feedback".toList, .str "Good pace".toList),
                 ("status".toList, .str "amazing".toList)]])]

/-- An in-flight state: a file is selected and a submission started. -/
def uploadingState : AppState :=
  { videoFile := some sampleFile, jobDescription := [],
    status := .UPLOADING, analysisResult := none, errorMessage := none }

/-- Positions below 64 are recovered from their alphabet character. -/
theorem b64Index_b64Char : ∀ n < 64, b64Index (b64Char n) = n := by decide

/-- Alphabet characters are neither the padding character nor a comma. -/
theorem b64Char_ne : ∀ n < 64, b64Char n ≠ '=' ∧ b64Char n ≠ ',' := by decide

/-- Base64 decoding inverts base64 encoding on byte lists. -/
theorem base64_roundtrip :
    ∀ l : List Nat, (∀ b ∈ l, b < 256) → base64Decode (base64Encode l) = l
  | [], _ => rfl
  | [b1], h => by
      have h1 : b1 < 256 := h b1 (by simp)
      have e1 := b64Index_b64Char (b1 / 4) (by omega)
      have e2 := b64Index_b64Char (b1 % 4 * 16) (by omega)
      simp only [base64Encode, base64Decode, if_pos, e1, e2, List.cons.injEq,
        and_true]
      omega
  | [b1, b2], h => by
      have h1 : b1 < 256 := h b1 (by simp)
      have h2 : b2 < 256 := h b2 (by simp)
      have e1 := b64Index_b64Char (b1 / 4) (by omega)
      have e2 := b64Index_b64Char (b1 % 4 * 16 + b2 / 16) (by omega)
      have e3 := b64Index_b64Char (b2 % 16 * 4) (by omega)
      have n3 := (b64Char_ne (b2 % 16 * 4) (by omega)).1
      simp only [base64Encode, base64Decode, if_neg n3, if_pos, e1, e2, e3,
        List.cons.injEq, and_true]
      omega
  | b1 :: b2 :: b3 :: b4 :: rest, h => by
      have h1 : b1 < 256 := h b1 (by simp)
      have h2 : b2 < 256 := h b2 (by simp)
      have h3 : b3 < 256 := h b3 (by simp)
      have e1 := b64Index_b64Char (b1 / 4) (by omega)
      have e2 := b64Index_b64Char (b1 % 4 * 16 + b2 / 16) (by omega)
      have e3 := b64Index_b64Char (b2 % 16 * 4 + b3 / 64) (by omega)
      have e4 := b64Index_b64Char (b3 % 64) (by omega)
      have n3 := (b64Char_ne (b2 % 16 * 4 + b3 / 64) (by omega)).1
      have n4 := (b64Char_ne (b3 % 64) (by omega)).1
      have ih := base64_roundtrip (b4 :: rest) (fun b hb => h b (by simp [hb]))
      simp only [base64Encode, base64Decode, if_neg n3, if_neg n4, ih,
        List.cons.injEq, and_true]
      omega
  | [b1, b2, b3], h => by
      have h1 : b1 < 256 := h b1 (by simp)
      have h2 : b2 < 256 := h b2 (by simp)
      have h3 : b3 < 256 := h b3 (by simp)
      have e1 := b64Index_b64Char (b1 / 4) (by omega)
      have e2 := b64Index_b64Char (b1 % 4 * 16 + b2 / 16) (by omega)
      have e3 := b64Index_b64Char (b2 % 16 * 4 + b3 / 64) (by omega)
      have e4 := b64Index_b64Char (b3 % 64) (by omega)
      have n3 := (b64Char_ne (b2 % 16 * 4 + b3 / 64) (by omega)).1
      have n4 := (b64Char_ne (b3 % 64) (by omega)).1
      simp only [base64Encode, base64Decode, if_neg n3, if_neg n4,
        List.cons.injEq, and_true]
      omega

/-- The encoder output never contains a comma. -/
theorem comma_not_mem_base64Encode :
    ∀ l : List Nat, (∀ b ∈ l, b < 256) → ',' ∉ base64Encode l
  | [], _ => by simp [base64Encode]
  | [b1], h => by
      have h1 : b1 < 256 := h b1 (by simp)
      have n1 := (b64Char_ne (b1 / 4) (by omega)).2
      have n2 := (b64Char_ne (b1 % 4 * 16) (by omega)).2
      simp only [base64Encode, List.mem_cons, List.not_mem_nil, or_false]
      push_neg
      exact ⟨fun e => n1 e.symm, fun e => n2 e.symm, by decide, by decide⟩
  | [b1, b2], h => by
      have h1 : b1 < 256 := h b1 (by simp)
      have h2 : b2 < 256 := h b2 (by simp)
      have n1 := (b64Char_ne (b1 / 4) (by omega)).2
      have n2 := (b64Char_ne (b1 % 4 * 16 + b2 / 16) (by omega)).2
      have n3 := (b64Char_ne (b2 % 16 * 4) (by omega)).2
      simp only [base64Encode, List.mem_cons, List.not_mem_nil, or_false]
      push_neg
      exact ⟨fun e => n1 e.symm, fun e => n2 e.symm, fun e => n3 e.symm, by decide⟩
  | b1 :: b2 :: b3 :: rest, h => by
      have h1 : b1 < 256 := h b1 (by simp)
      have h2 : b2 < 256 := h b2 (by simp)
      have h3 : b3 < 256 := h b3 (by simp)
      have n1 := (b64Char_ne (b1 / 4) (by omega)).2
      have n2 := (b64Char_ne (b1 % 4 * 16 + b2 / 16) (by omega)).2
      have n3 := (b64Char_ne (b2 % 16 * 4 + b3 / 64) (by omega)).2
      have n4 := (b64Char_ne (b3 % 64) (by omega)).2
      have ih := comma_not_mem_base64Encode rest (fun b hb => h b (by simp [hb]))
      simp only [base64Encode, List.mem_cons]
      push_neg
      exact ⟨fun e => n1 e.symm, fun e => n2 e.symm, fun e => n3 e.symm,
        fun e => n4 e.symm, ih⟩

/-- Splitting a comma-free string yields the single whole segment. -/
theorem splitComma_of_not_mem :
    ∀ a : List Char, ',' ∉ a → splitComma a = [a]
  | [], _ => rfl
  | c :: rest, h => by
      have hc : c ≠ ',' := fun e => h (by simp [e])
      have ih := splitComma_of_not_mem rest (fun m => h (List.mem_cons_of_mem _ m))
      simp [splitComma, hc, ih]

/-- Splitting at the first comma separates the comma-free head from the
tail. -/
theorem splitComma_append :
    ∀ a b : List Char, ',' ∉ a → splitComma (a ++ ',' :: b) = a :: splitComma b
  | [], b, _ => by simp [splitComma]
  | c :: a', b, h => by
      have hc : c ≠ ',' := fun e => h (by simp [e])
      have ih := splitComma_append a' b (fun m => h (List.mem_cons_of_mem _ m))
      simp only [List.cons_append, splitComma, if_neg hc, List.append_eq, ih]

/-- Claim C3: for every accepted file, the Binary Encoder strips the
data-URL header from the platform read result and returns only the
base64 payload, and re-prefixing its output with a standard data-URL
header and base64-decoding reproduces the original bytes exactly. -/
theorem fileToGenerativePart_roundtrip (file : JSFile)
    (hmime : ',' ∉ file.type) (hbytes : ∀ b ∈ file.bytes, b < 256) :
    (fileToGenerativePart file).data = base64Encode file.bytes ∧
    dataURLDecode ("data:".toList ++ file.type ++ ";base64,".toList ++
      (fileToGenerativePart file).data) = file.bytes := by
  have hpre : ',' ∉ ("data:".toList ++ file.type ++ ";base64".toList) := by
    intro hmem
    rcases List.mem_append.mp hmem with h1 | h2
    · rcases List.mem_append.mp h1 with h1a | h1b
      · exact absurd h1a (by decide)
      · exact hmime h1b
    · exact absurd h2 (by decide)
  have henc := comma_not_mem_base64Encode file.bytes hbytes
  have hurl : readAsDataURL file.type file.bytes =
      ("data:".toList ++ file.type ++ ";base64".toList) ++
        ',' :: base64Encode file.bytes := by
    have hb : ";base64,".toList = ";base64".toList ++ [','] := by decide
    simp [readAsDataURL, hb, List.append_assoc]
  have hsplit : splitComma (readAsDataURL file.type file.bytes) =
      [("data:".toList ++ file.type ++ ";base64".toList),
       base64Encode file.bytes] := by
    rw [hurl, splitComma_append _ _ hpre, splitComma_of_not_mem _ henc]
  have hdata : (fileToGenerativePart file).data = base64Encode file.bytes := by
    simp [fileToGenerativePart, hsplit]
  refine ⟨hdata, ?_⟩
  rw [hdata]
  show dataURLDecode (readAsDataURL file.type file.bytes) = file.bytes
  rw [dataURLDecode, hsplit]
  exact base64_roundtrip file.bytes hbytes

/-- A concrete MP4 file on which the encoder round-trip law holds. -/
theorem fileToGenerativePart_roundtrip_witness :
    (fileToGenerativePart ⟨"video/mp4".toList, 4, [77, 97, 110, 255]⟩).data =
      base64Encode [77, 97, 110, 255] ∧
    dataURLDecode ("data:".toList ++ "video/mp4".toList ++ ";base64,".toList ++
      (fileToGenerativePart ⟨"video/mp4".toList, 4, [77, 97, 110, 255]⟩).data) =
      [77, 97, 110, 255] :=
  fileToGenerativePart_roundtrip ⟨"video/mp4".toList, 4, [77, 97, 110, 255]⟩
    (by decide) (by decide)

/-- Claim C1 counterexample: a file whose MIME type string begins with
"video" but not with "video/" and whose size is within the ceiling is
rejected with the type-mismatch reason, so the claim's "otherwise it
accepts" fails at this input. -/
theorem validateFile_video_without_slash :
    "video".toList.isPrefixOf "video".toList = true ∧
    (10 : Nat) ≤ MAX_SIZE_MB * 1024 * 1024 ∧
    validateFile ⟨"video".toList, 10, []⟩ none = (false, some typeErrorMsg) := by
  decide

/-- Claim C1 (amended): the validator applies its rules in order — if
the MIME type does not begin with "video/" it rejects with the
type-mismatch reason; otherwise, if the size exceeds the 50 MiB ceiling
it rejects with the size-limit reason; otherwise it accepts. -/
theorem validateFile_rules (f : JSFile) (s : Option (List Char)) :
    ("video/".toList.isPrefixOf f.type = false →
      validateFile f s = (false, some typeErrorMsg)) ∧
    ("video/".toList.isPrefixOf f.type = true →
      MAX_SIZE_MB * 1024 * 1024 < f.size →
      validateFile f s = (false, some sizeErrorMsg)) ∧
    ("video/".toList.isPrefixOf f.type = true →
      f.size ≤ MAX_SIZE_MB * 1024 * 1024 →
      validateFile f s = (true, none)) := by
  refine ⟨fun h => ?_, fun h h2 => ?_, fun h h2 => ?_⟩
  · simp only [validateFile]
    rw [h]
    simp
  · simp only [validateFile]
    rw [h]
    simp [h2]
  · simp only [validateFile]
    rw [h]
    simp [Nat.not_lt.mpr h2]

/-- The three validator rules exercised on concrete files. -/
theorem validateFile_rules_witness :
    validateFile ⟨"text/plain".toList, 10, []⟩ none =
      (false, some typeErrorMsg) ∧
    validateFile ⟨"video/mp4".toList, 52428801, []⟩ none =
      (false, some sizeErrorMsg) ∧
    validateFile ⟨"video/mp4".toList, 10, []⟩ none = (true, none) :=
  ⟨(validateFile_rules ⟨"text/plain".toList, 10, []⟩ none).1 (by decide),
   (validateFile_rules ⟨"video/mp4".toList, 52428801, []⟩ none).2.1
     (by decide) (by decide),
   (validateFile_rules ⟨"video/mp4".toList, 10, []⟩ none).2.2
     (by decide) (by decide)⟩

/-- Claim C2 counterexample: an oversized file with a non-video MIME
type is rejected with the type-mismatch reason, not the size-limit
reason, because the type rule runs first. -/
theorem validateFile_oversize_nonvideo :
    MAX_SIZE_MB * 1024 * 1024 < 52428801 ∧
    validateFile ⟨"text/plain".toList, 52428801, []⟩ none =
      (false, some typeErrorMsg) ∧
    typeErrorMsg ≠ sizeErrorMsg := by
  decide

/-- Claim C2 (amended): every file whose declared size exceeds the
50 MiB ceiling is rejected, but the reason is the size-limit one only
when the MIME type starts with "video/"; otherwise the earlier type
rule reports the type-mismatch reason. -/
theorem validateFile_oversize (f : JSFile) (s : Option (List Char))
    (h : MAX_SIZE_MB * 1024 * 1024 < f.size) :
    (validateFile f s).1 = false ∧
    (validateFile f s).2 = some (if "video/".toList.isPrefixOf f.type
      then sizeErrorMsg else typeErrorMsg) := by
  cases hp : "video/".toList.isPrefixOf f.type <;>
    · simp only [validateFile]
      rw [hp]
      simp [h]

/-- An oversized video file is rejected with the size-limit reason. -/
theorem validateFile_oversize_witness :
    (validateFile ⟨"video/mp4".toList, 52428801, []⟩ none).1 = false ∧
    (validateFile ⟨"video/mp4".toList, 52428801, []⟩ none).2 =
      some (if "video/".toList.isPrefixOf "video/mp4".toList
        then sizeErrorMsg else typeErrorMsg) :=
  validateFile_oversize ⟨"video/mp4".toList, 52428801, []⟩ none (by decide)

/-- Claim C9 counterexample: validating a non-video file writes the
type-mismatch reason into the component error-message slot, so the
displayed error-message slot is changed by validation itself. -/
theorem validateFile_changes_slot :
    (validateFile ⟨"text/plain".toList, 10, []⟩ none).2 = some typeErrorMsg ∧
    some typeErrorMsg ≠ (none : Option (List Char)) := by
  decide

/-- Claim C9 (amended): the validator is not a pure predicate — it
writes the component error-message slot itself, clearing it and then
storing the reason on rejection.  The slot after validation depends
only on the file, not on its prior contents, and is empty exactly when
the file is accepted. -/
theorem validateFile_slot (f : JSFile) (s s' : Option (List Char)) :
    validateFile f s = validateFile f s' ∧
    ((validateFile f s).2 = none ↔ (validateFile f s).1 = true) := by
  refine ⟨rfl, ?_⟩
  cases hp : "video/".toList.isPrefixOf f.type
  · simp only [validateFile]
    rw [hp]
    simp
  · by_cases hs : MAX_SIZE_MB * 1024 * 1024 < f.size <;>
      · simp only [validateFile]
        rw [hp]
        simp [hs]

/-- Claim C7: the Analysis Request Builder substitutes the fixed
default role description exactly for the empty context string; every
non-empty context string is embedded in the instruction unchanged. -/
theorem buildPrompt_context (jd : List Char) :
    buildPrompt [] = promptHead ++ defaultRole ++ promptTail ∧
    (jd ≠ [] → buildPrompt jd = promptHead ++ jd ++ promptTail) := by
  refine ⟨rfl, fun h => ?_⟩
  simp [buildPrompt, effectiveRole, h]

/-- The default is used for the empty context and a concrete non-empty
context is passed through unchanged. -/
theorem buildPrompt_context_witness :
    buildPrompt [] = promptHead ++ defaultRole ++ promptTail ∧
    buildPrompt "Senior React Developer".toList =
      promptHead ++ "Senior React Developer".toList ++ promptTail :=
  ⟨(buildPrompt_context []).1,
   (buildPrompt_context "Senior React Developer".toList).2 (by decide)⟩

/-- Claim C4: with no configured credential (unset, or the falsy empty
string), analyzeInterview fails with the distinct configuration-missing
error and performs zero outbound network calls, for every file, context
string and would-be remote outcome. -/
theorem analyzeInterview_no_key (f : JSFile) (jd : List Char)
    (outcome : RemoteOutcome) :
    analyzeInterview none f jd outcome = (.error configMissingMsg, 0) ∧
    analyzeInterview (some []) f jd outcome = (.error configMissingMsg, 0) ∧
    configMissingMsg ≠ genericFailureMsg := by
  refine ⟨rfl, rfl, by decide⟩

/-- Claim C5: with a configured credential, every remote outcome other
than a successfully parsed body makes analyzeInterview fail with the
single opaque generic error; it never returns a report on such a
failure. -/
theorem analyzeInterview_failures_generic (key : List Char) (f : JSFile)
    (jd : List Char) (outcome : RemoteOutcome) (hkey : key ≠ [])
    (hout : ∀ j : Json, outcome ≠ RemoteOutcome.goodJson j) :
    (analyzeInterview (some key) f jd outcome).1 =
      .error genericFailureMsg ∧
    (∀ j : Json, (analyzeInterview (some key) f jd outcome).1 ≠ .ok j) ∧
    genericFailureMsg ≠ configMissingMsg := by
  have hk : jsFalsy (some key) = false := by
    cases key with
    | nil => exact absurd rfl hkey
    | cons c cs => rfl
  cases outcome with
  | goodJson j => exact absurd rfl (hout j)
  | netFail =>
      refine ⟨?_, ?_, by decide⟩ <;> simp [analyzeInterview, hk]
  | noText =>
      refine ⟨?_, ?_, by decide⟩ <;> simp [analyzeInterview, hk]
  | badJson =>
      refine ⟨?_, ?_, by decide⟩ <;> simp [analyzeInterview, hk]

/-- A parse failure on a configured client yields the generic error and
no report. -/
theorem analyzeInterview_failures_generic_witness :
    (analyzeInterview (some "key".toList) sampleFile []
      RemoteOutcome.badJson).1 = .error genericFailureMsg ∧
    (∀ j : Json, (analyzeInterview (some "key".toList) sampleFile []
      RemoteOutcome.badJson).1 ≠ .ok j) ∧
    genericFailureMsg ≠ configMissingMsg :=
  analyzeInterview_failures_generic "key".toList sampleFile []
    RemoteOutcome.badJson (by decide) (fun j h => nomatch h)

/-- Claim C6: with a configured credential, for every file, context
string and response body that parses to a JSON value j, analyzeInterview
returns exactly j with one network call, so the report fields equal the
parsed JSON values exactly; on the spec's worked example they read back
overallScore 82 and exactly one category, named Verbal Communication. -/
theorem analyzeInterview_wellformed (key : List Char) (f : JSFile)
    (jd : List Char) (j : Json) (hkey : key ≠ []) :
    analyzeInterview (some key) f jd (.goodJson j) = (.ok j, 1) ∧
    sampleResponse.getField "overallScore".toList = some (.num 82) ∧
    sampleResponse.getField "summary".toList =
      some (.str "Solid".toList) ∧
    sampleResponse.getField "strengths".toList =
      some (.arr [.str "Clear speech".toList]) ∧
    sampleResponse.getField "weaknesses".toList =
      some (.arr [.str "Rambling".toList]) ∧
    sampleResponse.getField "actionableTips".toList =
      some (.arr [.str "Be concise".toList]) ∧
    sampleResponse.getField "categories".toList =
      some (.arr [sampleCategory]) ∧
    sampleCategory.getField "name".toList =
      some (.str "Verbal Communication".toList) ∧
    sampleCategory.getField "score".toList = some (.num 80) := by
  have hk : jsFalsy (some key) = false := by
    cases key with
    | nil => exact absurd rfl hkey
    | cons c cs => rfl
  refine ⟨?_, rfl, rfl, rfl, rfl, rfl, rfl, rfl, rfl⟩
  simp [analyzeInterview, hk]

/-- The worked example response instantiates the exact pass-through of
parsed values. -/
theorem analyzeInterview_wellformed_witness :
    analyzeInterview (some "key".toList) sampleFile []
      (.goodJson sampleResponse) = (.ok sampleResponse, 1) ∧
    sampleResponse.getField "overallScore".toList = some (.num 82) ∧
    sampleResponse.getField "summary".toList =
      some (.str "Solid".toList) ∧
    sampleResponse.getField "strengths".toList =
      some (.arr [.str "Clear speech".toList]) ∧
    sampleResponse.getField "weaknesses".toList =
      some (.arr [.str "Rambling".toList]) ∧
    sampleResponse.getField "actionableTips".toList =
      some (.arr [.str "Be concise".toList]) ∧
    sampleResponse.getField "categories".toList =
      some (.arr [sampleCategory]) ∧
    sampleCategory.getField "name".toList =
      some (.str "Verbal Communication".toList) ∧
    sampleCategory.getField "score".toList = some (.num 80) :=
  analyzeInterview_wellformed "key".toList sampleFile [] sampleResponse
    (by decide)

/-- Claim C8: the client does not re-validate the report shape — a
valid-JSON response with overallScore 150 and an unlisted status string
is returned as the analysis result without any error, although it
violates the report-shape invariant. -/
theorem analyzeInterview_no_local_validation :
    analyzeInterview (some "key".toList) sampleFile []
      (.goodJson outOfRangeResponse) = (.ok outOfRangeResponse, 1) ∧
    outOfRangeResponse.getField "overallScore".toList =
      some (.num 150) ∧
    reportOK outOfRangeResponse = false := by
  refine ⟨rfl, rfl, by decide⟩

/-- Claim C10: in every App state reachable from the initial Idle state
through the component's transitions, an UPLOADING status implies the
error message is null and an ERROR status implies the error message is
a non-null string — the loading and error indications are never active
together. -/
theorem app_loading_error_exclusive (s : AppState) (h : Reachable s) :
    (s.status = UploadStatus.UPLOADING → s.errorMessage = none) ∧
    (s.status = UploadStatus.ERROR → s.errorMessage ≠ none) := by
  induction h with
  | init => exact ⟨(fun h => nomatch h), (fun h => nomatch h)⟩
  | step hr hstep ih =>
      cases hstep with
      | selectFile f => exact ih
      | setJob jd => exact ih
      | submit hf => exact ⟨(fun _ => rfl), (fun h => nomatch h)⟩
      | success j hs => exact ⟨(fun h => nomatch h), (fun h => nomatch h)⟩
      | failure msg hs =>
          exact ⟨(fun h => nomatch h), (fun _ => by simp)⟩
      | reset => exact ⟨(fun h => nomatch h), (fun h => nomatch h)⟩

/-- The invariant holds at a concrete reachable in-flight state. -/
theorem app_loading_error_exclusive_witness :
    (uploadingState.status = UploadStatus.UPLOADING →
      uploadingState.errorMessage = none) ∧
    (uploadingState.status = UploadStatus.ERROR →
      uploadingState.errorMessage ≠ none) :=
  app_loading_error_exclusive uploadingState
    (Reachable.step
      (Reachable.step Reachable.init
        (AppStep.selectFile initialAppState (some sampleFile)))
      (AppStep.submit { initialAppState with videoFile := some sampleFile }
        (by simp [initialAppState])))
